import Mathlib

/-!
Verification of the opa-envoy-plugin decision pipeline
(`internal/internal.go`): entry-point path resolution, configuration
validation, the per-call `check` pipeline with its finalize (stop)
closure, response shaping, the dry-run override, and the v3-to-v2
protocol shim.  External collaborators (input builder, evaluation
engine, store, audit sink) are represented by per-call outcome oracles
collected in `Env`, so that one `Env` fixes one concrete execution of
a call.
-/

namespace OpaEnvoy

/-- Code `google.rpc.OK` (0). -/
def codeOK : Int := 0

/-- Code `google.rpc.UNKNOWN` (2). -/
def codeUnknown : Int := 2

/-- Code `google.rpc.PERMISSION_DENIED` (7). -/
def codePermissionDenied : Int := 7

/-- Reference terms built by `stringPathToRef`: the root document
`ast.DefaultRootDocument` is the variable `data`; path segments become
string terms (`ast.StringTerm`) or integer number terms
(`ast.IntNumberTerm`). -/
inductive Term where
  | var (v : String)
  | str (s : String)
  | int (i : Int)
deriving DecidableEq

/-- A reference is a list of terms. -/
abbrev Ref := List Term

/-- Every character is a decimal digit. -/
def allDigits (cs : List Char) : Bool := cs.all Char.isDigit

/-- Numeric value of a digit string. -/
def digitsVal (cs : List Char) : Nat :=
  cs.foldl (fun a c => a * 10 + (c.toNat - 48)) 0

/-- Go `strconv.Atoi`: an optional sign followed by one or more decimal
digits, with the result inside the 64-bit integer range; `none` on any
other input. -/
def atoi (cs : List Char) : Option Int :=
  match cs with
  | '-' :: ds =>
      if ds ≠ [] ∧ allDigits ds = true then
        if digitsVal ds ≤ 2 ^ 63 then some (-(digitsVal ds : Int)) else none
      else none
  | '+' :: ds =>
      if ds ≠ [] ∧ allDigits ds = true then
        if digitsVal ds ≤ 2 ^ 63 - 1 then some (digitsVal ds : Int) else none
      else none
  | ds =>
      if ds ≠ [] ∧ allDigits ds = true then
        if digitsVal ds ≤ 2 ^ 63 - 1 then some (digitsVal ds : Int) else none
      else none

/-- One path segment, as in the loop body of `stringPathToRef`: a
segment that parses as a decimal integer becomes an integer term, any
other segment a string term. -/
def segTerm (cs : List Char) : Term :=
  match atoi cs with
  | some i => Term.int i
  | none => Term.str (String.mk cs)

/-- Go `strings.Split(s, string(sep))` on the character list of `s`,
for a one-character separator. -/
def splitChar (sep : Char) : List Char → List (List Char)
  | [] => [[]]
  | c :: cs =>
      if c = sep then [] :: splitChar sep cs
      else
        match splitChar sep cs with
        | [] => [[c]]
        | w :: ws => (c :: w) :: ws

/-- The loop of `stringPathToRef`: fold over the segments, skipping the
empty ones and appending `segTerm` of each remaining segment. -/
def refFold (l : List (List Char)) (acc : List Term) : List Term :=
  l.foldl (fun r x => if x = [] then r else r ++ [segTerm x]) acc

/-- The function `stringPathToRef` from the source, over a character
list: the empty input yields the empty reference; otherwise split on
`/`, skip empty segments, and convert each remaining segment with
`segTerm`. -/
def stringPathToRefL (s : List Char) : List Term :=
  if s = [] then [] else refFold (splitChar '/' s) []

/-- The function `stringPathToRef` over Lean strings. -/
def stringPathToRef (s : String) : List Term := stringPathToRefL s.data

/-- The function `stringPathToDataRef` from the source: the resolved
path prefixed with the root document reference `data`. -/
def stringPathToDataRef (s : String) : Ref :=
  Term.var "data" :: stringPathToRef s

/-- The non-empty slash-separated segments of a path. -/
def nonEmptySegs (s : List Char) : List (List Char) :=
  (splitChar '/' s).filter (fun x => !x.isEmpty)

/-- The fixed built-in entry point (`defaultPath` in the source). -/
def defaultPath : String := "envoy/authz/allow"

/-- Modelled from the spec: the external policy-query parser
(`ast.ParseBody` of the evaluation engine, which is not part of this
repository), restricted to dotted data references such as
`data.foo.bar` — the only query shape the configuration contract of the
spec uses.  The root must be the `data` document and every following
segment a non-empty identifier, each becoming a string key. -/
def parseQuery (s : String) : Option Ref :=
  match splitChar '.' s.data with
  | [] => none
  | root :: rest =>
      if root = "data".data ∧ rest ≠ [] ∧ rest.all (fun seg => !seg.isEmpty) then
        some (Term.var "data" :: rest.map (fun seg => Term.str (String.mk seg)))
      else none

/-- Outcome of configuration validation: the resolved configuration
(effective path, query string, compiled entry-point reference), or a
configuration error. -/
inductive ConfigResult where
  | ok (path : String) (query : String) (parsedQuery : Ref)
  | err (msg : String)
deriving DecidableEq

/-- The compiled entry-point reference of a validation outcome. -/
def parsedQueryOf : ConfigResult → Option Ref
  | ConfigResult.ok _ _ r => some r
  | ConfigResult.err _ => none

/-- The function `Validate` from the source, restricted to entry-point
resolution: it rejects setting both path and query; parses the
(deprecated) query when given; otherwise defaults the path and compiles
it with `stringPathToDataRef`.  In the source the path branch prints
the data reference and re-parses it, which is the identity on the
reference (per the spec the entry point is compiled once at load
time). -/
def Validate (path query : String) : ConfigResult :=
  if path ≠ "" ∧ query ≠ "" then
    ConfigResult.err "invalid config: specify a value for only the \"path\" field"
  else if query ≠ "" then
    match parseQuery query with
    | some r => ConfigResult.ok path query r
    | none => ConfigResult.err "query parse error"
  else
    let effective := if path = "" then defaultPath else path
    ConfigResult.ok effective query (stringPathToDataRef effective)

/-- Error text of a collaborator failure. -/
abbrev Err := String

/-- Opaque policy input document built by `envoyauth.RequestToInput`. -/
abbrev Input := Nat

/-- Opaque engine value built by `ast.InterfaceToValue`. -/
abbrev Value := Nat

/-- Opaque dynamic-metadata payload. -/
abbrev DynMeta := Nat

/-- A v3 header option; the source only reads key and value. -/
structure HeaderV3 where
  key : String
  value : String
deriving DecidableEq

/-- A v3 HTTP status (`ext_type_v3.HttpStatus`). -/
structure HttpStatusV3 where
  code : Int
deriving DecidableEq

/-- An `rpc_status.Status` as populated by the plugin: a code, and a
message that is empty except on the logging-failure override. -/
structure RpcStatus where
  code : Int
  message : String
deriving DecidableEq

/-- The `http_response` oneof of a v3 `CheckResponse`. -/
inductive HttpResponseV3 where
  | okResponse (headers : List HeaderV3) (headersToRemove : List String)
      (responseHeadersToAdd : List HeaderV3)
  | deniedResponse (headers : List HeaderV3) (body : String) (status : HttpStatusV3)
deriving DecidableEq

/-- A v3 `CheckResponse`.  The pipeline always sets `status` (line 420
of the source) before the response is observed, so it is modelled as a
plain field; the oneof and the metadata stay optional. -/
structure CheckResponseV3 where
  status : RpcStatus
  httpResponse : Option HttpResponseV3
  dynamicMetadata : Option DynMeta
deriving DecidableEq

/-- The untyped decision value.  The pipeline inspects only whether it
is a structured mapping (`map[string]interface{}` in the source); the
`tag` keeps distinct decision values distinguishable for the audit-log
claims. -/
inductive DecisionVal where
  | mapping (tag : Nat)
  | nonMapping (tag : Nat)
deriving DecidableEq

/-- Whether the decision value is a structured mapping. -/
def DecisionVal.isMapping : DecisionVal → Bool
  | DecisionVal.mapping _ => true
  | DecisionVal.nonMapping _ => false

instance {ε α : Type} [DecidableEq ε] [DecidableEq α] : DecidableEq (Except ε α) := fun x y =>
  match x, y with
  | Except.ok a, Except.ok b => decidable_of_iff (a = b) (by simp)
  | Except.ok _, Except.error _ => isFalse (by simp)
  | Except.error _, Except.ok _ => isFalse (by simp)
  | Except.error a, Except.error b => decidable_of_iff (a = b) (by simp)

/-- Per-call outcomes of all external collaborators, fixing one
concrete execution of `check`: constructor, transaction and audit-sink
failures, the deadline check, the input builder, the evaluation engine,
and the `EvalResult` getters read during response shaping. -/
structure Env where
  newEvalResultErr : Option Err
  getTxnErr : Option Err
  ctxErr : Option Err
  requestToInput : Except Err Input
  interfaceToValue : Except Err Value
  evalOutcome : Option Err
  decision : DecisionVal
  isAllowed : Except Err Bool
  getResponseHeaders : Except Err (List HeaderV3)
  getDynamicMetadata : Except Err DynMeta
  getHeadersToRemove : Except Err (List String)
  getResponseHeadersToAdd : Except Err (List HeaderV3)
  getResponseBody : Except Err String
  getHTTPStatus : Except Err HttpStatusV3
  logErr : Option Err
  dryRun : Bool
deriving DecidableEq

/-- Text of `errors.Wrap(e, msg)`. -/
def wrap (msg : String) (e : Err) : Err := msg ++ ": " ++ e

/-- The variables captured by the stop closure at the moment it runs:
the built input (if any), the decision value held by the evaluation
result, the function-level `err` variable, and `evalErr`.  The getters
called after line 430 of the source assign a shadowed `err`, so their
failures are not visible here. -/
structure StopData where
  input : Option Input
  decision : DecisionVal
  err : Option Err
  evalErr : Option Err
deriving DecidableEq

/-- Result of the response-shaping block (source lines 408 to 479): a
shaped response, or a failure carrying the value left in the
closure-visible `err` variable together with the wrapped error returned
to the caller. -/
inductive ShapeResult where
  | ok (resp : CheckResponseV3)
  | fail (outerErr : Option Err) (retErr : Err)
deriving DecidableEq

/-- Response shaping: set the base status derived from the allow bit;
for a structured-mapping decision extract the response headers, the
dynamic metadata, and the allow-branch or deny-branch payload selected
by the base status; any extraction failure aborts shaping with a
wrapped error.  A non-mapping decision yields the bare status. -/
def shapeResponse (env : Env) (status : Int) : ShapeResult :=
  match env.decision.isMapping with
  | false => ShapeResult.ok ⟨⟨status, ""⟩, none, none⟩
  | true =>
    match env.getResponseHeaders with
    | Except.error e => ShapeResult.fail (some e) (wrap "failed to get response headers" e)
    | Except.ok responseHeaders =>
      match env.getDynamicMetadata with
      | Except.error e => ShapeResult.fail none (wrap "failed to get dynamic metadata" e)
      | Except.ok md =>
        if status = codeOK then
          match env.getHeadersToRemove with
          | Except.error e => ShapeResult.fail none (wrap "failed to get request headers to remove" e)
          | Except.ok headersToRemove =>
            match env.getResponseHeadersToAdd with
            | Except.error e =>
                ShapeResult.fail none (wrap "failed to get response headers to send to client" e)
            | Except.ok responseHeadersToAdd =>
                ShapeResult.ok ⟨⟨status, ""⟩,
                  some (HttpResponseV3.okResponse responseHeaders headersToRemove
                    responseHeadersToAdd),
                  some md⟩
        else
          match env.getResponseBody with
          | Except.error e => ShapeResult.fail none (wrap "failed to get response body" e)
          | Except.ok body =>
            match env.getHTTPStatus with
            | Except.error e => ShapeResult.fail none (wrap "failed to get response http status" e)
            | Except.ok httpStatus =>
                ShapeResult.ok ⟨⟨status, ""⟩,
                  some (HttpResponseV3.deniedResponse responseHeaders body httpStatus),
                  some md⟩

/-- Result of one run of `check`: a failure before the transaction was
acquired (so the trivial stop closure is returned), a failure after it
(the real stop closure, with its captured variables), or success. -/
inductive CheckRet where
  | earlyFailure (err : Err)
  | failure (d : StopData) (err : Err)
  | success (resp : CheckResponseV3) (d : StopData)
deriving DecidableEq

/-- The body of `check` once the transaction is acquired (source lines
387 to 510): deadline check, input building, value conversion,
evaluation, response shaping, and the dry-run override. -/
def checkAcquired (env : Env) : CheckRet :=
  match env.ctxErr with
  | some e =>
      let we := wrap "check request timed out before query execution" e
      CheckRet.failure ⟨none, env.decision, some we, none⟩ we
  | none =>
  match env.requestToInput with
  | Except.error e => CheckRet.failure ⟨none, env.decision, some e, none⟩ e
  | Except.ok input =>
  match env.interfaceToValue with
  | Except.error e => CheckRet.failure ⟨some input, env.decision, some e, none⟩ e
  | Except.ok _ =>
  match env.evalOutcome with
  | some e => CheckRet.failure ⟨some input, env.decision, some e, some e⟩ e
  | none =>
  match env.isAllowed with
  | Except.error e =>
      CheckRet.failure ⟨some input, env.decision, some e, none⟩
        (wrap "failed to get response status" e)
  | Except.ok allowed =>
    let status := if allowed then codeOK else codePermissionDenied
    match shapeResponse env status with
    | ShapeResult.fail outerErr retErr =>
        CheckRet.failure ⟨some input, env.decision, outerErr, none⟩ retErr
    | ShapeResult.ok resp =>
      let final :=
        if env.dryRun = true ∧ resp.status.code ≠ codeOK then
          ⟨⟨codeOK, ""⟩, some (HttpResponseV3.okResponse [] [] []),
            resp.dynamicMetadata⟩
        else resp
      CheckRet.success final ⟨some input, env.decision, none, none⟩

/-- The function `check` (source lines 349 to 511): evaluation-context
start and transaction acquisition, then the acquired-phase body.  A
failure before the transaction exists returns immediately with the
trivial stop closure. -/
def check (env : Env) : CheckRet :=
  match env.newEvalResultErr with
  | some e => CheckRet.earlyFailure e
  | none =>
  match env.getTxnErr with
  | some e => CheckRet.earlyFailure e
  | none => checkAcquired env

/-- Observable effects of running the stop closure once: the audit-sink
invocations with their arguments, the transaction-close invocations
with the error value each received, and the status override the closure
returns (present exactly when the audit sink failed). -/
structure FinalizeEffects where
  logCalls : List StopData
  closeCalls : List (Option Err)
  override : Option RpcStatus
deriving DecidableEq

/-- The real stop closure (source lines 373 to 385): emit the audit log
once; when the sink fails, close the transaction with the logging error
and return the UNKNOWN status carrying the text of the sink error;
otherwise close with `evalErr` and return nil. -/
def runRealStop (env : Env) (d : StopData) : FinalizeEffects :=
  match env.logErr with
  | some le => ⟨[d], [some le], some ⟨codeUnknown, le⟩⟩
  | none => ⟨[d], [d.evalErr], none⟩

/-- Running the stop closure returned by `check`: the trivial closure
of the early-failure paths performs nothing and returns nil. -/
def runStop (env : Env) : CheckRet → FinalizeEffects
  | CheckRet.earlyFailure _ => ⟨[], [], none⟩
  | CheckRet.failure d _ => runRealStop env d
  | CheckRet.success _ d => runRealStop env d

/-- Outcome of a whole v3 call: the returned response, the returned
error, and the finalize effects. -/
structure OutcomeV3 where
  resp : Option CheckResponseV3
  err : Option Err
  effects : FinalizeEffects
deriving DecidableEq

/-- The v3 `Check` method (source lines 341 to 347): run `check`,
invoke the stop closure exactly once, and when both a response and an
override status exist, replace the status of the response. -/
def CheckV3 (env : Env) : OutcomeV3 :=
  let r := check env
  let eff := runStop env r
  match r with
  | CheckRet.success resp _ =>
      match eff.override with
      | some st => ⟨some { resp with status := st }, none, eff⟩
      | none => ⟨some resp, none, eff⟩
  | CheckRet.failure _ e => ⟨none, some e, eff⟩
  | CheckRet.earlyFailure e => ⟨none, some e, eff⟩

/-- A v2 header option; the shim copies only key and value. -/
structure HeaderV2 where
  key : String
  value : String
deriving DecidableEq

/-- A legacy HTTP status: the v2 status-code enumeration. -/
structure HttpStatusV2 where
  code : Int
deriving DecidableEq

/-- The `http_response` oneof of a v2 `CheckResponse`: the ok branch
has only the headers field; the denied branch has headers, status and
body. -/
inductive HttpResponseV2 where
  | okResponse (headers : List HeaderV2)
  | deniedResponse (headers : List HeaderV2) (status : HttpStatusV2) (body : String)
deriving DecidableEq

/-- A v2 `CheckResponse`. -/
structure CheckResponseV2 where
  status : RpcStatus
  httpResponse : Option HttpResponseV2
deriving DecidableEq

/-- The function `v2Headers`: copy key and value of each header into
the legacy type. -/
def v2Headers (hdrs : List HeaderV3) : List HeaderV2 :=
  hdrs.map (fun hv => ⟨hv.key, hv.value⟩)

/-- The function `v2Status`: re-typing of the HTTP status code into the
legacy status-code enumeration; the numeric value is unchanged. -/
def v2Status (s : HttpStatusV3) : HttpStatusV2 := ⟨s.code⟩

/-- The function `v2Response`: downgrade a v3 response into the v2 wire
shape.  The status is copied verbatim; the ok branch keeps only the
headers list; the denied branch keeps headers, status and body. -/
def v2Response (respV3 : CheckResponseV3) : CheckResponseV2 :=
  { status := respV3.status,
    httpResponse :=
      match respV3.httpResponse with
      | some (HttpResponseV3.okResponse hdrs _ _) =>
          some (HttpResponseV2.okResponse (v2Headers hdrs))
      | some (HttpResponseV3.deniedResponse hdrs body st) =>
          some (HttpResponseV2.deniedResponse (v2Headers hdrs) (v2Status st) body)
      | none => none }

/-- Outcome of a whole v2 call. -/
structure OutcomeV2 where
  resp : Option CheckResponseV2
  err : Option Err
  effects : FinalizeEffects
deriving DecidableEq

/-- The v2 `Check` method (source lines 566 to 581): delegate to the v3
`check`, convert the response, and let the deferred stop call override
the returned status; error paths return no response (the deferred
override then mutates a discarded empty response). -/
def CheckV2 (env : Env) : OutcomeV2 :=
  let r := check env
  let eff := runStop env r
  match r with
  | CheckRet.success resp _ =>
      let respV2 := v2Response resp
      match eff.override with
      | some st => ⟨some { respV2 with status := st }, none, eff⟩
      | none => ⟨some respV2, none, eff⟩
  | CheckRet.failure _ e => ⟨none, some e, eff⟩
  | CheckRet.earlyFailure e => ⟨none, some e, eff⟩

/-- The call acquired both an evaluation context and a storage
transaction. -/
def acquired (env : Env) : Bool :=
  env.newEvalResultErr.isNone && env.getTxnErr.isNone

/-- Modelled from the spec: the transaction closer supplied by the
evaluation-context collaborator (`GetTxn` of the `envoyauth` package of
this repository, which is not under `src/`); per the store contract it
aborts the transaction when handed a non-nil error and commits it when
handed nil. -/
def txnAbort (e : Option Err) : Bool := e.isSome

/-- A collaborator call succeeded. -/
def exOk {α : Type} : Except Err α → Bool
  | Except.ok _ => true
  | Except.error _ => false

/-- The evaluation step itself failed on this call (that is, the call
reached `envoyauth.Eval` and it returned an error). -/
def evalFailed (env : Env) : Bool :=
  acquired env && env.ctxErr.isNone && exOk env.requestToInput &&
    exOk env.interfaceToValue && env.evalOutcome.isSome

/-- Which branch of the `http_response` oneof is populated. -/
inductive BranchTag where
  | noBranch
  | okBranch
  | deniedBranch
deriving DecidableEq

/-- Branch discriminator of a response. -/
def branchTag : Option HttpResponseV3 → BranchTag
  | none => BranchTag.noBranch
  | some (HttpResponseV3.okResponse _ _ _) => BranchTag.okBranch
  | some (HttpResponseV3.deniedResponse _ _ _) => BranchTag.deniedBranch

/-- A fully successful call: every collaborator succeeds, a non-mapping
decision that allows, no dry run, working audit sink. -/
def envBase : Env :=
  { newEvalResultErr := none
    getTxnErr := none
    ctxErr := none
    requestToInput := Except.ok 0
    interfaceToValue := Except.ok 0
    evalOutcome := none
    decision := DecisionVal.nonMapping 0
    isAllowed := Except.ok true
    getResponseHeaders := Except.ok []
    getDynamicMetadata := Except.ok 0
    getHeadersToRemove := Except.ok []
    getResponseHeadersToAdd := Except.ok []
    getResponseBody := Except.ok ""
    getHTTPStatus := Except.ok ⟨403⟩
    logErr := none
    dryRun := false }

/-- A denied call whose collaborators all succeed but whose audit sink
fails. -/
def envLogFail : Env :=
  { envBase with isAllowed := Except.ok false, logErr := some "audit sink unavailable" }

/-- A call that fails while starting the evaluation context. -/
def envStartFail : Env :=
  { envBase with newEvalResultErr := some "cannot create evaluation context" }

/-- An allowed call whose collaborators all succeed but whose audit
sink fails while writing the decision log. -/
def envLogFailCommit : Env :=
  { envBase with logErr := some "decision log sink failed" }

/-- A dry-run call with a denied plain decision and a failing audit
sink. -/
def envDryRunLogFail : Env :=
  { envBase with
    dryRun := true
    isAllowed := Except.ok false
    logErr := some "sink write refused" }

/-- A dry-run call with a denied plain decision and a working audit
sink. -/
def envDryRunDeny : Env :=
  { envBase with dryRun := true, isAllowed := Except.ok false }

/-- A dry-run call with a denied structured decision carrying dynamic
metadata. -/
def envDryRunMappingDeny : Env :=
  { envBase with
    dryRun := true
    decision := DecisionVal.mapping 2
    isAllowed := Except.ok false
    getDynamicMetadata := Except.ok 42
    getResponseBody := Except.ok "no"
    getHTTPStatus := Except.ok ⟨403⟩ }

/-- An allowed call with a plain (non-mapping) decision: the base
pipeline environment itself. -/
def envScalarAllow : Env := envBase

/-- A denied call with a structured mapping decision carrying headers,
metadata, a body and an HTTP status. -/
def envMappingDeny : Env :=
  { envBase with
    decision := DecisionVal.mapping 1
    isAllowed := Except.ok false
    getResponseHeaders := Except.ok [⟨"x-reason", "denied"⟩]
    getDynamicMetadata := Except.ok 5
    getResponseBody := Except.ok "forbidden"
    getHTTPStatus := Except.ok ⟨403⟩ }

/-- The response shaped for `envMappingDeny`. -/
def shapedMappingDeny : CheckResponseV3 :=
  ⟨⟨codePermissionDenied, ""⟩,
    some (HttpResponseV3.deniedResponse [⟨"x-reason", "denied"⟩] "forbidden" ⟨403⟩),
    some 5⟩

/-- A dry-run call with a denied plain decision: the environment of the
C6 counterexample. -/
def envDryRunScalarDeny : Env :=
  { envBase with dryRun := true, isAllowed := Except.ok false }

/-- A denied call with a plain decision, no dry run, working sink. -/
def envScalarDeny : Env :=
  { envBase with isAllowed := Except.ok false }

theorem splitChar_ne_nil (sep : Char) (cs : List Char) : splitChar sep cs ≠ [] := by
  induction cs with
  | nil => simp [splitChar]
  | cons c cs ih =>
      unfold splitChar
      split
      · simp
      · split
        · simp
        · simp

theorem splitChar_append (sep : Char) (a b : List Char) :
    splitChar sep (a ++ sep :: b) = splitChar sep a ++ splitChar sep b := by
  induction a with
  | nil => simp [splitChar]
  | cons c a ih =>
      by_cases h : c = sep
      · subst h
        simp [splitChar, ih]
      · have hne := splitChar_ne_nil sep a
        cases hs : splitChar sep a with
        | nil => exact absurd hs hne
        | cons w ws => simp [splitChar, h, ih, hs]

theorem nonEmptySegs_nil : nonEmptySegs [] = [] := rfl

theorem nonEmptySegs_append (a b : List Char) :
    nonEmptySegs (a ++ '/' :: b) = nonEmptySegs a ++ nonEmptySegs b := by
  simp [nonEmptySegs, splitChar_append, List.filter_append]

theorem refFold_eq (l : List (List Char)) (acc : List Term) :
    refFold l acc = acc ++ (l.filter (fun x => !x.isEmpty)).map segTerm := by
  induction l generalizing acc with
  | nil => simp [refFold]
  | cons x l ih =>
      cases x with
      | nil =>
          have hstep : refFold ([] :: l) acc = refFold l acc := rfl
          rw [hstep, ih]
          simp
      | cons c cs =>
          have hstep : refFold ((c :: cs) :: l) acc = refFold l (acc ++ [segTerm (c :: cs)]) := rfl
          rw [hstep, ih]
          simp

theorem stringPathToRefL_eq (s : List Char) :
    stringPathToRefL s = (nonEmptySegs s).map segTerm := by
  cases s with
  | nil => rfl
  | cons c cs =>
      have h : stringPathToRefL (c :: cs) = refFold (splitChar '/' (c :: cs)) [] := by
        simp [stringPathToRefL]
      rw [h, refFold_eq]
      simp [nonEmptySegs]

/-- C10: entry-point path resolution skips empty segments — leading,
trailing or duplicated slashes do not change the resolved reference —
and each segment becomes an integer index exactly when it parses as a
decimal integer, a string key otherwise. -/
theorem stringPathToRef_slash_insensitive (s a b : List Char) :
    stringPathToRefL ('/' :: s) = stringPathToRefL s ∧
    stringPathToRefL (s ++ ['/']) = stringPathToRefL s ∧
    stringPathToRefL (a ++ '/' :: '/' :: b) = stringPathToRefL (a ++ '/' :: b) ∧
    stringPathToRef "/foo//bar/" = stringPathToRef "foo/bar" ∧
    stringPathToRef "foo/42/bar" = [Term.str "foo", Term.int 42, Term.str "bar"] ∧
    (∀ x : List Char, segTerm x =
      match atoi x with
      | some i => Term.int i
      | none => Term.str (String.mk x)) := by
  refine ⟨?_, ?_, ?_, by decide, by decide, fun x => rfl⟩
  · rw [stringPathToRefL_eq, stringPathToRefL_eq]
    have h := nonEmptySegs_append [] s
    rw [show ('/' :: s : List Char) = [] ++ '/' :: s from rfl, h, nonEmptySegs_nil]
    simp
  · rw [stringPathToRefL_eq, stringPathToRefL_eq]
    have h := nonEmptySegs_append s []
    rw [show s ++ ['/'] = s ++ '/' :: [] from rfl, h, nonEmptySegs_nil]
    simp
  · rw [stringPathToRefL_eq, stringPathToRefL_eq]
    have h1 := nonEmptySegs_append a ('/' :: b)
    have h2 := nonEmptySegs_append ([] : List Char) b
    have h3 := nonEmptySegs_append a b
    simp only [List.nil_append] at h2
    rw [show a ++ '/' :: '/' :: b = a ++ '/' :: ('/' :: b) from rfl, h1, h2, h3,
      nonEmptySegs_nil]
    simp

/-- C8: configuration validation rejects setting both a path and a
query; with neither set, the path defaults to the fixed built-in entry
point; and the path foo/bar resolves to the same compiled entry-point
reference as the query data.foo.bar. -/
theorem validate_entry_point (p q : String) (hp : p ≠ "") (hq : q ≠ "") :
    Validate p q =
      ConfigResult.err "invalid config: specify a value for only the \"path\" field" ∧
    Validate "" "" = ConfigResult.ok "envoy/authz/allow" ""
      [Term.var "data", Term.str "envoy", Term.str "authz", Term.str "allow"] ∧
    parsedQueryOf (Validate "foo/bar" "") = parsedQueryOf (Validate "" "data.foo.bar") ∧
    parsedQueryOf (Validate "foo/bar" "") =
      some [Term.var "data", Term.str "foo", Term.str "bar"] := by
  refine ⟨?_, by decide, by decide, by decide⟩
  simp [Validate, hp, hq]

/-- Witness: the validation theorem applied at a concrete configuration
that sets both fields. -/
theorem validate_entry_point_witness :
    Validate "foo/bar" "data.foo.bar" =
      ConfigResult.err "invalid config: specify a value for only the \"path\" field" :=
  (validate_entry_point "foo/bar" "data.foo.bar" (by decide) (by decide)).1

/-- C7: the v2 shim copies the status code verbatim; the allow branch
keeps only the headers-to-add list (headers-to-remove and
response-headers-to-add have no v2 counterpart and are dropped); the
deny branch keeps headers, body, and the HTTP status code narrowed to
the legacy status-code enumeration with its numeric value intact. -/
theorem v2Response_shim (st : RpcStatus) (md : Option DynMeta)
    (hs : List HeaderV3) (hrm : List String) (rha : List HeaderV3)
    (dh : List HeaderV3) (db : String) (ds : HttpStatusV3) :
    v2Response ⟨st, some (HttpResponseV3.okResponse hs hrm rha), md⟩ =
      ⟨st, some (HttpResponseV2.okResponse (v2Headers hs))⟩ ∧
    v2Response ⟨st, some (HttpResponseV3.deniedResponse dh db ds), md⟩ =
      ⟨st, some (HttpResponseV2.deniedResponse (v2Headers dh) ⟨ds.code⟩ db)⟩ ∧
    v2Response ⟨st, none, md⟩ = ⟨st, none⟩ ∧
    v2Headers hs = hs.map (fun hv => ⟨hv.key, hv.value⟩) :=
  ⟨rfl, rfl, rfl, rfl⟩

theorem CheckV3_effects (env : Env) : (CheckV3 env).effects = runStop env (check env) := by
  cases hr : check env with
  | earlyFailure e => simp [CheckV3, hr]
  | failure d e => simp [CheckV3, hr]
  | success resp d =>
      simp only [CheckV3, hr]
      cases ho : (runStop env (CheckRet.success resp d)).override <;> simp [ho]

theorem CheckV2_effects (env : Env) : (CheckV2 env).effects = runStop env (check env) := by
  cases hr : check env with
  | earlyFailure e => simp [CheckV2, hr]
  | failure d e => simp [CheckV2, hr]
  | success resp d =>
      simp only [CheckV2, hr]
      cases ho : (runStop env (CheckRet.success resp d)).override <;> simp [ho]

theorem checkAcquired_not_early (env : Env) (e : Err) :
    checkAcquired env ≠ CheckRet.earlyFailure e := by
  unfold checkAcquired
  repeat' split
  all_goals try simp
  · cases hs : shapeResponse env codeOK <;> simp [hs]
  · cases hs : shapeResponse env codePermissionDenied <;> simp [hs]

/-- C1: when the audit-log emission performed during finalization fails
on a call that produced a wire response, the status returned to the
caller is the generic UNKNOWN code whose message is exactly the text of
the sink error, whatever allow or deny status the decision produced,
on both the v3 entry point and the v2 one. -/
theorem logging_failure_overrides_status (env : Env) (resp : CheckResponseV3)
    (d : StopData) (m : Err)
    (hs : check env = CheckRet.success resp d) (hl : env.logErr = some m) :
    (CheckV3 env).resp = some { resp with status := ⟨codeUnknown, m⟩ } ∧
    (CheckV2 env).resp = some { v2Response resp with status := ⟨codeUnknown, m⟩ } := by
  constructor <;> simp [CheckV3, CheckV2, hs, runStop, runRealStop, hl]

/-- Witness: the logging-failure theorem at a concrete denied call with
a failing audit sink; the decision denied, yet the returned status is
UNKNOWN with the sink message. -/
theorem logging_failure_overrides_status_witness :
    (CheckV3 envLogFail).resp =
      some ⟨⟨codeUnknown, "audit sink unavailable"⟩, none, none⟩ ∧
    (CheckV2 envLogFail).resp =
      some ⟨⟨codeUnknown, "audit sink unavailable"⟩, none⟩ := by
  have h := logging_failure_overrides_status envLogFail
    ⟨⟨codePermissionDenied, ""⟩, none, none⟩
    ⟨some 0, DecisionVal.nonMapping 0, none, none⟩
    "audit sink unavailable" (by decide) (by decide)
  exact ⟨by simpa [v2Response] using h.1, by simpa [v2Response] using h.2⟩

/-- C2: finalization (one audit-log emission and one transaction close)
runs exactly once if and only if the call acquired a storage
transaction, with identical finalize effects on the v2 and v3 entry
points; a call failing at context start or transaction acquisition
returns that error with no response and no finalize effects. -/
theorem finalize_exactly_once_iff_acquired (env : Env) :
    ((CheckV3 env).effects.logCalls.length = if acquired env then 1 else 0) ∧
    ((CheckV3 env).effects.closeCalls.length = if acquired env then 1 else 0) ∧
    (CheckV2 env).effects = (CheckV3 env).effects ∧
    (acquired env = false →
      (CheckV3 env).resp = none ∧
      (CheckV3 env).err = env.newEvalResultErr.or env.getTxnErr ∧
      (CheckV3 env).effects = ⟨[], [], none⟩) := by
  have hv3 := CheckV3_effects env
  have hv2 := CheckV2_effects env
  cases hn : env.newEvalResultErr with
  | some e => simp [CheckV3, CheckV2, check, hn, acquired, runStop]
  | none =>
    cases hg : env.getTxnErr with
    | some e => simp [CheckV3, CheckV2, check, hn, hg, acquired, runStop]
    | none =>
      have hacq : acquired env = true := by simp [acquired, hn, hg]
      have hch : check env = checkAcquired env := by simp [check, hn, hg]
      refine ⟨?_, ?_, by rw [hv2, hv3], ?_⟩
      · rw [hv3, hch, hacq]
        cases hr : checkAcquired env with
        | earlyFailure e => exact absurd hr (checkAcquired_not_early env e)
        | failure d e2 => cases hl : env.logErr <;> simp [runStop, runRealStop, hl]
        | success r d => cases hl : env.logErr <;> simp [runStop, runRealStop, hl]
      · rw [hv3, hch, hacq]
        cases hr : checkAcquired env with
        | earlyFailure e => exact absurd hr (checkAcquired_not_early env e)
        | failure d e2 => cases hl : env.logErr <;> simp [runStop, runRealStop, hl]
        | success r d => cases hl : env.logErr <;> simp [runStop, runRealStop, hl]
      · intro hfalse
        rw [hacq] at hfalse
        cases hfalse

/-- Witness: the finalize theorem at a concrete call whose
evaluation-context start fails — the error is returned, and the audit
sink and transaction close never run. -/
theorem finalize_exactly_once_iff_acquired_witness :
    (CheckV3 envStartFail).resp = none ∧
    (CheckV3 envStartFail).err = some "cannot create evaluation context" ∧
    (CheckV3 envStartFail).effects = ⟨[], [], none⟩ := by
  have h := (finalize_exactly_once_iff_acquired envStartFail).2.2.2 (by decide)
  refine ⟨h.1, ?_, h.2.2⟩
  rw [h.2.1]
  decide

theorem close_arg_of_acquired (env : Env)
    (h1 : env.newEvalResultErr = none) (h2 : env.getTxnErr = none) :
    (CheckV3 env).effects.closeCalls =
      [if env.logErr.isSome then env.logErr
       else if evalFailed env then env.evalOutcome else none] := by
  have hv3 := CheckV3_effects env
  have hch : check env = checkAcquired env := by simp [check, h1, h2]
  have hacq : acquired env = true := by simp [acquired, h1, h2]
  rw [hv3, hch]
  cases hc : env.ctxErr with
  | some e =>
      cases hl : env.logErr <;>
        simp [checkAcquired, hc, runStop, runRealStop, hl, evalFailed, hacq]
  | none =>
    cases hi : env.requestToInput with
    | error e =>
        cases hl : env.logErr <;>
          simp [checkAcquired, hc, hi, runStop, runRealStop, hl, evalFailed, hacq, exOk]
    | ok i =>
      cases hv : env.interfaceToValue with
      | error e =>
          cases hl : env.logErr <;>
            simp [checkAcquired, hc, hi, hv, runStop, runRealStop, hl, evalFailed, hacq, exOk]
      | ok v =>
        cases he : env.evalOutcome with
        | some e =>
            cases hl : env.logErr <;>
              simp [checkAcquired, hc, hi, hv, he, runStop, runRealStop, hl, evalFailed,
                hacq, exOk]
        | none =>
          cases ha : env.isAllowed with
          | error e =>
              cases hl : env.logErr <;>
                simp [checkAcquired, hc, hi, hv, he, ha, runStop, runRealStop, hl, evalFailed,
                  hacq, exOk]
          | ok b =>
            cases hs : shapeResponse env (if b then codeOK else codePermissionDenied) with
            | fail oe re =>
                cases hl : env.logErr <;>
                  simp [checkAcquired, hc, hi, hv, he, ha, hs, runStop, runRealStop, hl,
                    evalFailed, hacq, exOk]
            | ok resp =>
                cases hl : env.logErr <;>
                  simp [checkAcquired, hc, hi, hv, he, ha, hs, runStop, runRealStop, hl,
                    evalFailed, hacq, exOk]

/-- C3 counterexample: a call whose evaluation succeeds but whose audit
sink fails; the stop closure hands the transaction closer the non-nil
logging error, an abort, although the evaluation step did not fail —
the claim requires a commit whenever the evaluation itself succeeded. -/
theorem txn_aborted_despite_eval_success :
    evalFailed envLogFailCommit = false ∧
    (CheckV3 envLogFailCommit).effects.closeCalls.map txnAbort = [true] := by decide

/-- C3 amended: for every call that reaches finalization, the
transaction close receives the logging error when the audit sink
failed and the evaluation error otherwise; hence it aborts exactly when
the evaluation step failed or the audit-log emission failed, and
commits otherwise, including when response shaping failed. -/
theorem txn_close_abort_condition (env : Env)
    (h1 : env.newEvalResultErr = none) (h2 : env.getTxnErr = none) :
    (CheckV3 env).effects.closeCalls =
      [if env.logErr.isSome then env.logErr
       else if evalFailed env then env.evalOutcome else none] ∧
    (CheckV3 env).effects.closeCalls.map txnAbort =
      [evalFailed env || env.logErr.isSome] := by
  have h := close_arg_of_acquired env h1 h2
  refine ⟨h, ?_⟩
  rw [h]
  cases hl : env.logErr with
  | some le => simp [txnAbort, hl]
  | none =>
      cases hf : evalFailed env with
      | false => simp [txnAbort, hf]
      | true =>
          have hout : env.evalOutcome.isSome = true := by
            simp [evalFailed, Bool.and_eq_true] at hf
            exact hf.2
          simp [txnAbort, hf, hout]

/-- Witness: the amended transaction-close theorem at the concrete call
with a failing audit sink. -/
theorem txn_close_abort_condition_witness :
    (CheckV3 envLogFailCommit).effects.closeCalls = [some "decision log sink failed"] ∧
    (CheckV3 envLogFailCommit).effects.closeCalls.map txnAbort = [true] := by
  have h := txn_close_abort_condition envLogFailCommit rfl rfl
  constructor
  · rw [h.1]
    decide
  · rw [h.2]
    decide

theorem shapeResponse_status (env : Env) (st : Int) (resp : CheckResponseV3)
    (h : shapeResponse env st = ShapeResult.ok resp) : resp.status = ⟨st, ""⟩ := by
  unfold shapeResponse at h
  repeat' split at h
  all_goals first
    | exact ShapeResult.noConfusion h
    | (cases h; rfl)

theorem shapeResponse_metadata (env : Env) (st : Int) (resp : CheckResponseV3) (md : DynMeta)
    (hm : env.decision.isMapping = true) (hmd : env.getDynamicMetadata = Except.ok md)
    (h : shapeResponse env st = ShapeResult.ok resp) :
    resp.dynamicMetadata = some md := by
  unfold shapeResponse at h
  simp only [hm, hmd] at h
  repeat' split at h
  all_goals first
    | exact ShapeResult.noConfusion h
    | (cases h; rfl)

theorem check_dry_run_denied (env : Env) (i : Input) (v : Value) (shaped : CheckResponseV3)
    (hd : env.dryRun = true)
    (h1 : env.newEvalResultErr = none) (h2 : env.getTxnErr = none)
    (h3 : env.ctxErr = none) (h4 : env.requestToInput = Except.ok i)
    (h5 : env.interfaceToValue = Except.ok v) (h6 : env.evalOutcome = none)
    (h7 : env.isAllowed = Except.ok false)
    (h8 : shapeResponse env codePermissionDenied = ShapeResult.ok shaped) :
    check env = CheckRet.success
      ⟨⟨codeOK, ""⟩, some (HttpResponseV3.okResponse [] [] []), shaped.dynamicMetadata⟩
      ⟨some i, env.decision, none, none⟩ := by
  have hst := shapeResponse_status env codePermissionDenied shaped h8
  have hne : (codePermissionDenied : Int) ≠ codeOK := by decide
  simp [check, checkAcquired, h1, h2, h3, h4, h5, h6, h7, h8, hd, hst, hne]

/-- C4 counterexample: dry run configured, decision denied, audit sink
failing — the logging-failure override takes priority over the dry-run
override, so the returned status is the UNKNOWN failure code, not the
forced allow the claim requires for every dry-run call. -/
theorem dry_run_not_forced_allow_on_log_failure :
    envDryRunLogFail.dryRun = true ∧
    (CheckV3 envDryRunLogFail).resp.map (fun r => r.status.code) = some codeUnknown ∧
    ¬ (CheckV3 envDryRunLogFail).resp.map (fun r => r.status.code) = some codeOK := by
  decide

/-- C4 amended: for every dry-run call whose shaped status is not
allow, the HTTP response is replaced with the empty allow branch and
the audit-log entry records the original un-overridden decision value
and error, never the forced allow; the returned status is the forced OK
provided the audit-log emission succeeds (a failing emission overrides
it, per the logging-failure rule). -/
theorem dry_run_override (env : Env) (i : Input) (v : Value) (shaped : CheckResponseV3)
    (hd : env.dryRun = true)
    (h1 : env.newEvalResultErr = none) (h2 : env.getTxnErr = none)
    (h3 : env.ctxErr = none) (h4 : env.requestToInput = Except.ok i)
    (h5 : env.interfaceToValue = Except.ok v) (h6 : env.evalOutcome = none)
    (h7 : env.isAllowed = Except.ok false)
    (h8 : shapeResponse env codePermissionDenied = ShapeResult.ok shaped) :
    (CheckV3 env).effects.logCalls = [⟨some i, env.decision, none, none⟩] ∧
    (CheckV3 env).resp.map (fun r => r.httpResponse) =
      some (some (HttpResponseV3.okResponse [] [] [])) ∧
    (env.logErr = none →
      (CheckV3 env).resp = some ⟨⟨codeOK, ""⟩,
        some (HttpResponseV3.okResponse [] [] []), shaped.dynamicMetadata⟩) := by
  have hch := check_dry_run_denied env i v shaped hd h1 h2 h3 h4 h5 h6 h7 h8
  refine ⟨?_, ?_, ?_⟩
  · rw [CheckV3_effects env, hch]
    cases hl : env.logErr <;> simp [runStop, runRealStop, hl]
  · cases hl : env.logErr <;> simp [CheckV3, hch, runStop, runRealStop, hl]
  · intro hl
    simp [CheckV3, hch, runStop, runRealStop, hl]

/-- Witness: the amended dry-run theorem at a concrete denied dry-run
call — the log records the denied decision with no error, while the
response is the forced empty allow. -/
theorem dry_run_override_witness :
    (CheckV3 envDryRunDeny).effects.logCalls =
      [⟨some 0, DecisionVal.nonMapping 0, none, none⟩] ∧
    (CheckV3 envDryRunDeny).resp =
      some ⟨⟨codeOK, ""⟩, some (HttpResponseV3.okResponse [] [] []), none⟩ := by
  have h := dry_run_override envDryRunDeny 0 0 ⟨⟨codePermissionDenied, ""⟩, none, none⟩
    rfl rfl rfl rfl rfl rfl rfl rfl (by decide)
  exact ⟨h.1, by simpa using h.2.2 rfl⟩

/-- C9: the dry-run override leaves the dynamic-metadata field of the
response unchanged — the returned response carries exactly the shaped
dynamic metadata, so a denied structured decision still delivers its
dynamic metadata to the caller in dry-run mode; with a working audit
sink, status and HTTP response are the only fields it replaces. -/
theorem dry_run_preserves_dynamic_metadata (env : Env) (i : Input) (v : Value)
    (shaped : CheckResponseV3)
    (hd : env.dryRun = true)
    (h1 : env.newEvalResultErr = none) (h2 : env.getTxnErr = none)
    (h3 : env.ctxErr = none) (h4 : env.requestToInput = Except.ok i)
    (h5 : env.interfaceToValue = Except.ok v) (h6 : env.evalOutcome = none)
    (h7 : env.isAllowed = Except.ok false)
    (h8 : shapeResponse env codePermissionDenied = ShapeResult.ok shaped) :
    (CheckV3 env).resp.map (fun r => r.dynamicMetadata) = some shaped.dynamicMetadata ∧
    (env.logErr = none →
      (CheckV3 env).resp = some ⟨⟨codeOK, ""⟩,
        some (HttpResponseV3.okResponse [] [] []), shaped.dynamicMetadata⟩) ∧
    (∀ md, env.decision.isMapping = true → env.getDynamicMetadata = Except.ok md →
      shaped.dynamicMetadata = some md) := by
  have hch := check_dry_run_denied env i v shaped hd h1 h2 h3 h4 h5 h6 h7 h8
  refine ⟨?_, ?_, ?_⟩
  · cases hl : env.logErr <;> simp [CheckV3, hch, runStop, runRealStop, hl]
  · intro hl
    simp [CheckV3, hch, runStop, runRealStop, hl]
  · intro md hm hmd
    exact shapeResponse_metadata env codePermissionDenied shaped md hm hmd h8

/-- Witness: the metadata-preservation theorem at a concrete dry-run
call whose denied mapping decision carries dynamic metadata 42; the
forced-allow response still contains it. -/
theorem dry_run_preserves_dynamic_metadata_witness :
    (CheckV3 envDryRunMappingDeny).resp.map (fun r => r.dynamicMetadata) =
      some (some 42) ∧
    (CheckV3 envDryRunMappingDeny).resp =
      some ⟨⟨codeOK, ""⟩, some (HttpResponseV3.okResponse [] [] []), some 42⟩ := by
  have h := dry_run_preserves_dynamic_metadata envDryRunMappingDeny 0 0
    ⟨⟨codePermissionDenied, ""⟩, some (HttpResponseV3.deniedResponse [] "no" ⟨403⟩),
      some 42⟩
    rfl rfl rfl rfl rfl rfl rfl rfl (by decide)
  exact ⟨by simpa using h.1, by simpa using h.2.1 rfl⟩

/-- C5 counterexample: a plain boolean allow decision produces a wire
response with neither branch of the oneof populated, contradicting the
claim that every decision value populates exactly one branch. -/
theorem no_branch_for_scalar_decision :
    (CheckV3 envScalarAllow).resp.map (fun r => branchTag r.httpResponse) =
      some BranchTag.noBranch ∧
    (CheckV3 envScalarAllow).resp.map (fun r => branchTag r.httpResponse) ≠
      some BranchTag.okBranch ∧
    (CheckV3 envScalarAllow).resp.map (fun r => branchTag r.httpResponse) ≠
      some BranchTag.deniedBranch := by decide

/-- C5 amended: response shaping — before the dry-run override —
populates exactly one branch, selected by the base status derived from
the allow bit, when the decision is a structured mapping, and no branch
at all when it is not. -/
theorem shaped_branch_selected_by_status (env : Env) (b : Bool) (shaped : CheckResponseV3)
    (h : shapeResponse env (if b then codeOK else codePermissionDenied) =
      ShapeResult.ok shaped) :
    shaped.status = ⟨if b then codeOK else codePermissionDenied, ""⟩ ∧
    branchTag shaped.httpResponse =
      (if env.decision.isMapping then
        (if b then BranchTag.okBranch else BranchTag.deniedBranch)
       else BranchTag.noBranch) := by
  refine ⟨shapeResponse_status env _ shaped h, ?_⟩
  cases hm : env.decision.isMapping with
  | false =>
      unfold shapeResponse at h
      simp only [hm] at h
      cases h
      simp [branchTag]
  | true =>
      cases b with
      | true =>
          unfold shapeResponse at h
          simp only [hm] at h
          simp [codeOK, codePermissionDenied] at h
          repeat' split at h
          all_goals first
            | exact ShapeResult.noConfusion h
            | (cases h; simp [branchTag])
      | false =>
          unfold shapeResponse at h
          simp only [hm] at h
          simp [codeOK, codePermissionDenied] at h
          repeat' split at h
          all_goals first
            | exact ShapeResult.noConfusion h
            | (cases h; simp [branchTag])

/-- Witness: the amended branch-selection theorem at a concrete denied
mapping decision, whose shaped response populates exactly the denied
branch. -/
theorem shaped_branch_selected_by_status_witness :
    shapeResponse envMappingDeny (if false then codeOK else codePermissionDenied) =
      ShapeResult.ok shapedMappingDeny ∧
    shapedMappingDeny.status = ⟨codePermissionDenied, ""⟩ ∧
    branchTag shapedMappingDeny.httpResponse = BranchTag.deniedBranch := by
  have h := shaped_branch_selected_by_status envMappingDeny false shapedMappingDeny
    (by decide)
  refine ⟨by decide, by simpa using h.1, ?_⟩
  have h2 := h.2
  simpa [envMappingDeny, envBase, DecisionVal.isMapping] using h2

/-- C6 counterexample: under dry run, a denied plain-boolean decision
returns status OK together with an empty allow-branch payload — not
the bare base PERMISSION_DENIED status with no payload that the claim
requires for every non-mapping decision. -/
theorem scalar_decision_payload_under_dry_run :
    envDryRunScalarDeny.decision.isMapping = false ∧
    (CheckV3 envDryRunScalarDeny).resp =
      some ⟨⟨codeOK, ""⟩, some (HttpResponseV3.okResponse [] [] []), none⟩ ∧
    (CheckV3 envDryRunScalarDeny).resp.map (fun r => r.status.code) ≠
      some codePermissionDenied := by decide

/-- C6 amended: for a non-mapping decision the shaped response carries
only the base status code — OK when allowed, PERMISSION_DENIED when
denied — and no header, body or dynamic-metadata payload; without dry
run configured and with a working audit sink, that bare response is
exactly what the call returns. -/
theorem scalar_decision_bare_status (env : Env) (b : Bool) (i : Input) (v : Value)
    (hm : env.decision.isMapping = false) (hb : env.isAllowed = Except.ok b)
    (h1 : env.newEvalResultErr = none) (h2 : env.getTxnErr = none)
    (h3 : env.ctxErr = none) (h4 : env.requestToInput = Except.ok i)
    (h5 : env.interfaceToValue = Except.ok v) (h6 : env.evalOutcome = none) :
    shapeResponse env (if b then codeOK else codePermissionDenied) =
      ShapeResult.ok ⟨⟨if b then codeOK else codePermissionDenied, ""⟩, none, none⟩ ∧
    (env.dryRun = false → env.logErr = none →
      (CheckV3 env).resp =
        some ⟨⟨if b then codeOK else codePermissionDenied, ""⟩, none, none⟩) := by
  constructor
  · unfold shapeResponse
    rw [hm]
  · intro hdr hl
    cases b <;>
      simp [CheckV3, check, checkAcquired, shapeResponse, h1, h2, h3, h4, h5, h6, hb, hm,
        hdr, hl, runStop, runRealStop]

/-- Witness: the bare-status theorem at a concrete denied plain
decision; the returned response is exactly the bare
PERMISSION_DENIED status. -/
theorem scalar_decision_bare_status_witness :
    shapeResponse envScalarDeny (if false then codeOK else codePermissionDenied) =
      ShapeResult.ok ⟨⟨codePermissionDenied, ""⟩, none, none⟩ ∧
    (CheckV3 envScalarDeny).resp =
      some ⟨⟨codePermissionDenied, ""⟩, none, none⟩ := by
  have h := scalar_decision_bare_status envScalarDeny false 0 0
    rfl rfl rfl rfl rfl rfl rfl rfl
  exact ⟨by simpa using h.1, by simpa using h.2 rfl rfl⟩

end OpaEnvoy
